import Mathlib

/-!
Verification of the `procedural_map` repository's spatial-hash terrain and
entity-index core (src/Grid.js, src/main.js Cell, src/perlinNoise.js).

The development is a shallow embedding: JavaScript numbers are modelled by
exact arithmetic (ℚ where the code only adds, multiplies, divides and
compares; ℝ where the code takes square roots or trigonometric functions),
`Set` fields by `Finset`, the `this.cells` hash map by a function from
integer cell coordinates to `Option`, and in-place object mutation by
explicit state passing.  Because `Grid.getCell` is identity-stable (one
`Cell` instance per coordinate pair for the life of a grid), cells are
identified by their integer coordinates.

The file is organised in three independent models, each faithful to the part
of the source it embeds:
* `Index`   — Grid entity indexing (`addEntity` / `updateEntity` /
              `removeEntity` / `clear` / spatial queries) from src/Grid.js.
* `Terrain` — the Perlin noise generator (src/perlinNoise.js) and the
              terrain attributes computed in the `Cell` constructor and
              `calculateTreeSpawnChance` (src/main.js).
* `Flow`    — `Cell.getNeighborsInRadius` / `calculateFlowDirection` /
              `getFlowDirection` (src/main.js) with their per-cell caches.
-/

namespace Index

/-- State of one `Grid` (src/Grid.js) together with the entity fields the
index reads and writes (`entity.position`, `entity.currentCell`).  Entities
are identified by natural numbers.  `mat` is the set of keys present in
`this.cells`; `mem k` is the membership `Set` of the cell at `k` (a cell
that was never materialized has never been touched, so its set is `∅`);
`pos e` is `entity.position`; `cur e` is `entity.currentCell`, stored as the
cell's coordinates (sound because `getCell` is identity-stable and cells are
never replaced while only `addEntity`/`updateEntity`/`removeEntity` run). -/
structure GState where
  cellSize : ℚ
  mat : Finset (ℤ × ℤ)
  mem : ℤ × ℤ → Finset ℕ
  pos : ℕ → ℚ × ℚ
  cur : ℕ → Option (ℤ × ℤ)

/-- Model of `Grid.worldToCell` (src/Grid.js:40-45): `Math.floor` division of each
world coordinate by `cellSize`. -/
def worldToCell (s : GState) (x y : ℚ) : ℤ × ℤ :=
  (⌊x / s.cellSize⌋, ⌊y / s.cellSize⌋)

/-- Model of `Grid.getCell` (src/Grid.js:53-61): create the cell if absent, return
it.  In the coordinate model the returned "cell" is its key; a freshly
constructed cell has an empty entity set, which `mem` already reports. -/
def getCell (s : GState) (k : ℤ × ℤ) : (ℤ × ℤ) × GState :=
  (k, { s with mat := insert k s.mat })

/-- Model of `Grid.getCellAtWorldPos` (src/Grid.js:69-72). -/
def getCellAtWorldPos (s : GState) (x y : ℚ) : (ℤ × ℤ) × GState :=
  getCell s (worldToCell s x y)

/-- Model of `Grid.addEntity` (src/Grid.js:78-82): look up (lazily creating) the cell
containing `entity.position`, add the entity to its set, repoint
`entity.currentCell`. -/
def addEntity (s : GState) (e : ℕ) : GState :=
  let r := getCellAtWorldPos s (s.pos e).1 (s.pos e).2
  { r.2 with
    mem := Function.update r.2.mem r.1 (insert e (r.2.mem r.1)),
    cur := Function.update r.2.cur e (some r.1) }

/-- Model of `Grid.removeEntity` (src/Grid.js:88-93): if tracked, remove from the
current cell's set and null the back-reference. -/
def removeEntity (s : GState) (e : ℕ) : GState :=
  match s.cur e with
  | none => s
  | some c =>
      { s with
        mem := Function.update s.mem c ((s.mem c).erase e),
        cur := Function.update s.cur e none }

/-- Model of `Grid.updateEntity` (src/Grid.js:99-113): recompute the cell from the
current position (lazy-create path); if unchanged do nothing, otherwise
remove from the old cell (when tracked), add to the new one, repoint.  The
JS comparison `entity.currentCell !== newCell` is object identity, which
coincides with coordinate equality while cells are never replaced. -/
def updateEntity (s : GState) (e : ℕ) : GState :=
  let r := getCellAtWorldPos s (s.pos e).1 (s.pos e).2
  if r.2.cur e = some r.1 then r.2
  else
    let s2 :=
      match r.2.cur e with
      | none => r.2
      | some old => { r.2 with mem := Function.update r.2.mem old ((r.2.mem old).erase e) }
    { s2 with
      mem := Function.update s2.mem r.1 (insert e (s2.mem r.1)),
      cur := Function.update s2.cur e (some r.1) }

/-- Model of `Grid.clear` (src/Grid.js:198-201): empty every cell's membership set
(`cell.clear()`, src/main.js:477-479) and reset the cell map; entity
back-references are not touched. -/
def clearG (s : GState) : GState :=
  { s with mat := ∅, mem := fun _ => ∅ }

/-- One externally driven event: the caller moves an entity and invokes a
grid method "at its then-current position".  `add`/`update` carry the
entity's position at the moment of the call (the caller has already written
`entity.position` before the grid reads it). -/
inductive Op where
  | add (e : ℕ) (p : ℚ × ℚ)
  | update (e : ℕ) (p : ℚ × ℚ)
  | remove (e : ℕ)

/-- The caller writes `entity.position` (e.g. `Entity.setPosition`). -/
def setPos (s : GState) (e : ℕ) (p : ℚ × ℚ) : GState :=
  { s with pos := Function.update s.pos e p }

def step (s : GState) : Op → GState
  | .add e p => addEntity (setPos s e p) e
  | .update e p => updateEntity (setPos s e p) e
  | .remove e => removeEntity s e

def run (s : GState) : List Op → GState
  | [] => s
  | op :: t => run (step s op) t

/-- The cell-coordinate pair whose range contains the entity's current
position. -/
def cellOf (s : GState) (e : ℕ) : ℤ × ℤ :=
  worldToCell s (s.pos e).1 (s.pos e).2

/-- The index invariant exactly as claimed: every tracked entity (non-null
`currentCell`) is in the membership set of its `currentCell`, that cell is
the one containing its position, and no other cell's set contains it. -/
def ClaimInv (s : GState) : Prop :=
  ∀ e c, s.cur e = some c →
    e ∈ s.mem c ∧ c = cellOf s e ∧ ∀ c', e ∈ s.mem c' → c' = c

/-- Strengthened index invariant, additionally recording that a tracked
entity's cell is materialized and that an untracked entity is in no cell's
set (both needed for preservation and for the radius-query proof). -/
def Inv (s : GState) : Prop :=
  ∀ e : ℕ,
    (∀ c, s.cur e = some c →
      c ∈ s.mat ∧ e ∈ s.mem c ∧ c = cellOf s e ∧ ∀ c', e ∈ s.mem c' → c' = c)
    ∧ (s.cur e = none → ∀ c', e ∉ s.mem c')

/-- A call sequence in which `addEntity` is only ever invoked on an entity
that is not currently tracked (which is how the repository uses it: the
`Entity` constructor is the only `addEntity` call site). -/
def Ok (s : GState) : List Op → Prop
  | [] => True
  | op :: t =>
      (match op with
       | .add e _ => s.cur e = none
       | _ => True) ∧ Ok (step s op) t

/-- A grid as built by `new Grid(50, ...)` before any entity exists. -/
def init50 : GState :=
  { cellSize := 50, mat := ∅, mem := fun _ => ∅, pos := fun _ => (0, 0), cur := fun _ => none }

/-- The exact-circle test of `getEntitiesInRadius` (src/Grid.js:139-147).
The source computes `Math.sqrt(dx*dx + dy*dy) <= radius`; over the reals
`√d ≤ r ↔ 0 ≤ r ∧ d ≤ r·r`, which is the square-root-free form used here so
the test stays inside ℚ. -/
def withinRadius (p : ℚ × ℚ) (cx cy r : ℚ) : Prop :=
  0 ≤ r ∧ (p.1 - cx) * (p.1 - cx) + (p.2 - cy) * (p.2 - cy) ≤ r * r

instance withinRadius.instDecidable (p : ℚ × ℚ) (cx cy r : ℚ) :
    Decidable (withinRadius p cx cy r) := by
  unfold withinRadius; infer_instance

/-- Model of `Grid.getEntitiesInRadius` (src/Grid.js:122-153): enumerate the cell
range obtained by floor-dividing the bounding square, collect members of
existing cells, filter by exact distance.  The result is returned together
with the (unchanged) grid state, mirroring that a JS method call could in
principle mutate `this`. -/
def getEntitiesInRadius (s : GState) (cx cy r : ℚ) : Finset ℕ × GState :=
  let minCellX := ⌊(cx - r) / s.cellSize⌋
  let maxCellX := ⌊(cx + r) / s.cellSize⌋
  let minCellY := ⌊(cy - r) / s.cellSize⌋
  let maxCellY := ⌊(cy + r) / s.cellSize⌋
  ((Finset.Icc minCellX maxCellX ×ˢ Finset.Icc minCellY maxCellY).biUnion
    (fun c =>
      if c ∈ s.mat then (s.mem c).filter (fun e => withinRadius (s.pos e) cx cy r)
      else ∅),
   s)

/-- The closed-rectangle test of `getEntitiesInArea` (src/Grid.js:177-187). -/
def withinArea (p : ℚ × ℚ) (x y w h : ℚ) : Prop :=
  x ≤ p.1 ∧ p.1 ≤ x + w ∧ y ≤ p.2 ∧ p.2 ≤ y + h

instance withinArea.instDecidable (p : ℚ × ℚ) (x y w h : ℚ) :
    Decidable (withinArea p x y w h) := by
  unfold withinArea; infer_instance

/-- Model of `Grid.getEntitiesInArea` (src/Grid.js:163-193). -/
def getEntitiesInArea (s : GState) (x y w h : ℚ) : Finset ℕ × GState :=
  let minCellX := ⌊x / s.cellSize⌋
  let maxCellX := ⌊(x + w) / s.cellSize⌋
  let minCellY := ⌊y / s.cellSize⌋
  let maxCellY := ⌊(y + h) / s.cellSize⌋
  ((Finset.Icc minCellX maxCellX ×ˢ Finset.Icc minCellY maxCellY).biUnion
    (fun c =>
      if c ∈ s.mat then (s.mem c).filter (fun e => withinArea (s.pos e) x y w h)
      else ∅),
   s)

/-- State reached from the fresh grid by adding entity 0 at world position
(3, 4): a consistent index with one tracked entity. -/
def oneTracked : GState := step init50 (.add 0 (3, 4))

/-- State reached by calling `addEntity` on entity 0 at (0, 0) and then
again at (100, 0) after the entity moved: the second call does not remove
the entity from cell (0, 0). -/
def doubleAdd : GState := run init50 [.add 0 (0, 0), .add 0 (100, 0)]

end Index

namespace Terrain

/-- Hash of `PerlinNoise.randomGradient` (src/perlinNoise.js:19-20).  The JS
`%` operator is the remainder carrying the sign of the dividend, `Int.rem`.
JS numbers are doubles, but for the coordinate magnitudes the program
explores every intermediate product is an exact integer, so exact integer
arithmetic is the faithful model. -/
def hashOf (seed ix iy : ℤ) : ℤ :=
  Int.tmod (ix * 374761393 + iy * 668265263 + seed * 1000) 2147483647

/-- Angle of the gradient, `(hash / 2147483647) * 2 * Math.PI`
(src/perlinNoise.js:21). -/
noncomputable def angleOf (seed ix iy : ℤ) : ℝ :=
  ((hashOf seed ix iy : ℝ) / 2147483647) * (2 * Real.pi)

/-- Gradient vector as a pure function of seed and lattice point
(src/perlinNoise.js:23-26). -/
noncomputable def pureGradient (seed ix iy : ℤ) : ℝ × ℝ :=
  (Real.cos (angleOf seed ix iy), Real.sin (angleOf seed ix iy))

/-- Model of `PerlinNoise.interpolate` (src/perlinNoise.js:41-43). -/
def interpolate (a0 a1 w : ℝ) : ℝ :=
  (a1 - a0) * (3.0 - w * 2.0) * w * w + a0

/-- Dot product of offset and corner gradient as a pure function
(src/perlinNoise.js:33-38 with the gradient inlined). -/
noncomputable def pureDotGridGradient (seed ix iy : ℤ) (x y : ℝ) : ℝ :=
  (x - ix) * (pureGradient seed ix iy).1 + (y - iy) * (pureGradient seed ix iy).2

/-- Value of `PerlinNoise.noise` as a pure function of the seed and the
query point (src/perlinNoise.js:46-75 with the caches erased). -/
noncomputable def pureNoise (seed : ℤ) (x y : ℝ) : ℝ :=
  let x0 := ⌊x⌋
  let x1 := x0 + 1
  let y0 := ⌊y⌋
  let y1 := y0 + 1
  let sx := x - x0
  let sy := y - y0
  let n0 := pureDotGridGradient seed x0 y0 x y
  let n1 := pureDotGridGradient seed x1 y0 x y
  let ix0 := interpolate n0 n1 sx
  let n2 := pureDotGridGradient seed x0 y1 x y
  let n3 := pureDotGridGradient seed x1 y1 x y
  let ix1 := interpolate n2 n3 sx
  let value := interpolate ix0 ix1 sy
  max 0 (min 1 ((value + 1) / 2))

/-- State of one `PerlinNoise` instance: the seed and the two monotonically
growing caches.  The JS caches are keyed by the strings formed from the
numbers, which is injective on numbers, so keying by the pairs is
faithful. -/
structure PN where
  seed : ℤ
  gradients : ℤ × ℤ → Option (ℝ × ℝ)
  memory : ℝ × ℝ → Option ℝ

/-- Model of `PerlinNoise.randomGradient` (src/perlinNoise.js:12-30): serve
from the cache, otherwise compute and store. -/
noncomputable def randomGradient (s : PN) (ix iy : ℤ) : (ℝ × ℝ) × PN :=
  match s.gradients (ix, iy) with
  | some g => (g, s)
  | none =>
      let g := pureGradient s.seed ix iy
      (g, { s with gradients := Function.update s.gradients (ix, iy) (some g) })

/-- Model of `PerlinNoise.dotGridGradient` (src/perlinNoise.js:33-38). -/
noncomputable def dotGridGradient (s : PN) (ix iy : ℤ) (x y : ℝ) : ℝ × PN :=
  let r := randomGradient s ix iy
  ((x - ix) * r.1.1 + (y - iy) * r.1.2, r.2)

/-- Model of `PerlinNoise.noise` (src/perlinNoise.js:46-75): serve from the
memo, otherwise interpolate the four corner dot products (each call possibly
filling the gradient cache), clamp, store, return. -/
noncomputable def noise (s : PN) (x y : ℝ) : ℝ × PN :=
  match s.memory (x, y) with
  | some v => (v, s)
  | none =>
      let x0 := ⌊x⌋
      let x1 := x0 + 1
      let y0 := ⌊y⌋
      let y1 := y0 + 1
      let sx := x - x0
      let sy := y - y0
      let r0 := dotGridGradient s x0 y0 x y
      let r1 := dotGridGradient r0.2 x1 y0 x y
      let ix0 := interpolate r0.1 r1.1 sx
      let r2 := dotGridGradient r1.2 x0 y1 x y
      let r3 := dotGridGradient r2.2 x1 y1 x y
      let ix1 := interpolate r2.1 r3.1 sx
      let value := interpolate ix0 ix1 sy
      let clamped := max 0 (min 1 ((value + 1) / 2))
      (clamped, { r3.2 with memory := Function.update r3.2.memory (x, y) (some clamped) })

/-- Cache consistency: every cached gradient and every memoized sample is
the value the pure functions assign. -/
def PNOk (s : PN) : Prop :=
  (∀ ix iy g, s.gradients (ix, iy) = some g → g = pureGradient s.seed ix iy) ∧
  (∀ x y v, s.memory (x, y) = some v → v = pureNoise s.seed x y)

/-- Terrain flag `water` (src/main.js:250). -/
def waterFlag (h : ℝ) : Prop := h < 0.4

/-- Terrain flag `beach` (src/main.js:251).  Both comparisons are strict in
the source. -/
def beachFlag (h : ℝ) : Prop := 0.4 < h ∧ h < 0.45

/-- Terrain flag `frozen` (src/main.js:252). -/
def frozenFlag (t : ℝ) : Prop := t < 0.3

/-- Terrain flag `desert` (src/main.js:253). -/
def desertFlag (t : ℝ) : Prop := 0.7 < t

/-- Terrain attributes of one cell (the terrain part of the `Cell`
constructor, src/main.js:213-260). -/
structure TCell where
  soilFertility : ℝ
  height : ℝ
  temperature : ℝ
  water : Prop
  beach : Prop
  frozen : Prop
  desert : Prop

/-- The three noise frequencies of the grid configuration. -/
structure Freqs where
  soilFertility : ℝ
  height : ℝ
  temperature : ℝ

/-- Terrain part of one `Grid` (src/Grid.js:2-22): the configuration, the
three noise generators constructed with the fixed seeds 123, 456 and 789,
and the lazily filled cell map. -/
structure TGrid where
  cellSize : ℝ
  freqs : Freqs
  soilNoiseGenerator : PN
  heightNoiseGenerator : PN
  temperatureNoiseGenerator : PN
  cells : ℤ × ℤ → Option TCell

/-- Terrain attributes of the cell at (x, y) as a pure function of the
configuration. -/
noncomputable def pureCell (f : Freqs) (x y : ℤ) : TCell :=
  let soil := pureNoise 123 (x * f.soilFertility) (y * f.soilFertility)
  let h := pureNoise 456 (x * f.height) (y * f.height)
  let t := pureNoise 789 (x * f.temperature) (y * f.temperature)
  { soilFertility := soil, height := h, temperature := t,
    water := waterFlag h, beach := beachFlag h,
    frozen := frozenFlag t, desert := desertFlag t }

/-- Model of the `Cell` constructor's terrain computation
(src/main.js:226-253): sample the three generators at
`(coord * frequency)` and derive the flags.  The flora side effect
(`spawnTreesHere`) creates entities but reads no terrain back, so it is
outside this model. -/
noncomputable def mkCell (g : TGrid) (x y : ℤ) : TCell × TGrid :=
  let rs := noise g.soilNoiseGenerator (x * g.freqs.soilFertility) (y * g.freqs.soilFertility)
  let rh := noise g.heightNoiseGenerator (x * g.freqs.height) (y * g.freqs.height)
  let rt := noise g.temperatureNoiseGenerator (x * g.freqs.temperature) (y * g.freqs.temperature)
  ({ soilFertility := rs.1, height := rh.1, temperature := rt.1,
     water := waterFlag rh.1, beach := beachFlag rh.1,
     frozen := frozenFlag rt.1, desert := desertFlag rt.1 },
   { g with soilNoiseGenerator := rs.2, heightNoiseGenerator := rh.2,
            temperatureNoiseGenerator := rt.2 })

/-- Model of `Grid.getCell` (src/Grid.js:53-61), terrain view: return the
cached cell or construct and store a new one. -/
noncomputable def getCell (g : TGrid) (x y : ℤ) : TCell × TGrid :=
  match g.cells (x, y) with
  | some c => (c, g)
  | none =>
      let r := mkCell g x y
      (r.1, { r.2 with cells := Function.update r.2.cells (x, y) (some r.1) })

/-- Grid-state consistency: the generators carry the constructor's seeds,
their caches are consistent, and every cached cell holds the pure terrain
of its coordinates. -/
def GOk (g : TGrid) : Prop :=
  g.soilNoiseGenerator.seed = 123 ∧
  g.heightNoiseGenerator.seed = 456 ∧
  g.temperatureNoiseGenerator.seed = 789 ∧
  PNOk g.soilNoiseGenerator ∧ PNOk g.heightNoiseGenerator ∧
  PNOk g.temperatureNoiseGenerator ∧
  ∀ k c, g.cells k = some c → c = pureCell g.freqs k.1 k.2

/-- A freshly constructed grid: empty caches, empty cell map. -/
noncomputable def freshTGrid (f : Freqs) : TGrid :=
  { cellSize := 50, freqs := f,
    soilNoiseGenerator := { seed := 123, gradients := fun _ => none, memory := fun _ => none },
    heightNoiseGenerator := { seed := 456, gradients := fun _ => none, memory := fun _ => none },
    temperatureNoiseGenerator := { seed := 789, gradients := fun _ => none, memory := fun _ => none },
    cells := fun _ => none }

/-- The frequencies the demo passes to the Grid (src/main.js:16-20). -/
noncomputable def demoFreqs : Freqs :=
  { soilFertility := 0.11, height := 0.131, temperature := 0.012 }

/-- Preference record for one tree type (src/main.js:316-372). -/
structure TreePrefs where
  heightMin : ℚ
  heightMax : ℚ
  heightOptimal : ℚ
  soilMin : ℚ
  soilMax : ℚ
  soilOptimal : ℚ
  tempMin : ℚ
  tempMax : ℚ
  tempOptimal : ℚ

def oakPrefs : TreePrefs :=
  { heightMin := 0.4, heightMax := 0.7, heightOptimal := 0.55,
    soilMin := 0.4, soilMax := 0.7, soilOptimal := 0.55,
    tempMin := 0.4, tempMax := 0.7, tempOptimal := 0.55 }

def pinePrefs : TreePrefs :=
  { heightMin := 0.5, heightMax := 0.8, heightOptimal := 0.65,
    soilMin := 0.5, soilMax := 0.8, soilOptimal := 0.65,
    tempMin := 0.5, tempMax := 0.8, tempOptimal := 0.65 }

def palmPrefs : TreePrefs :=
  { heightMin := 0.45, heightMax := 0.75, heightOptimal := 0.6,
    soilMin := 0.45, soilMax := 0.75, soilOptimal := 0.6,
    tempMin := 0.45, tempMax := 0.75, tempOptimal := 0.6 }

def birchPrefs : TreePrefs :=
  { heightMin := 0.4, heightMax := 1, heightOptimal := 0.6,
    soilMin := 0.2, soilMax := 0.6, soilOptimal := 0.4,
    tempMin := 0.6, tempMax := 0.85, tempOptimal := 0.725 }

def maplePrefs : TreePrefs :=
  { heightMin := 0.6, heightMax := 0.85, heightOptimal := 0.6,
    soilMin := 0.5, soilMax := 0.9, soilOptimal := 0.7,
    tempMin := 0.1, tempMax := 0.4, tempOptimal := 0.25 }

/-- The `treePreferences` lookup table of `calculateTreeSpawnChance`
(src/main.js:316-375): a JS object lookup, `undefined` for unknown keys. -/
def treePreferences (treeType : String) : Option TreePrefs :=
  if treeType = "oak" then some oakPrefs
  else if treeType = "pine" then some pinePrefs
  else if treeType = "palm" then some palmPrefs
  else if treeType = "birch" then some birchPrefs
  else if treeType = "maple" then some maplePrefs
  else none

/-- Model of `Cell.calculatePropertyFitness` (src/main.js:418-432). -/
def calculatePropertyFitness (value min max optimal : ℚ) : ℚ :=
  if value < min ∨ value > max then 0
  else
    let distanceFromOptimal := |value - optimal|
    let maxDistance := Max.max (optimal - min) (max - optimal)
    let fitness := 1 - distanceFromOptimal / maxDistance
    Max.max 0 fitness

/-- Result of one `calculateTreeSpawnChance` call: the returned chance and
whether the unknown-type branch (`console.warn` + `return 0`,
src/main.js:376-379) was taken. -/
structure SpawnCalc where
  chance : ℚ
  warned : Bool

/-- Model of `Cell.calculateTreeSpawnChance` (src/main.js:314-408). -/
def calculateTreeSpawnChance (height soilFertility temperature : ℚ)
    (treeType : String) : SpawnCalc :=
  match treePreferences treeType with
  | none => { chance := 0, warned := true }
  | some prefs =>
      let heightFitness := calculatePropertyFitness height
        prefs.heightMin prefs.heightMax prefs.heightOptimal
      let soilFitness := calculatePropertyFitness soilFertility
        prefs.soilMin prefs.soilMax prefs.soilOptimal
      let tempFitness := calculatePropertyFitness temperature
        prefs.tempMin prefs.tempMax prefs.tempOptimal
      let combinedFitness := heightFitness * soilFitness * tempFitness
      let baseSpawnRate : ℚ := 0.3
      { chance := combinedFitness * baseSpawnRate, warned := false }

/-- Chance-collection phase of `Cell.spawnTreesHere` (src/main.js:269-280):
evaluate every type in the list, keep those with positive chance. -/
def collectTreeChances (height soilFertility temperature : ℚ)
    (types : List String) : List (String × ℚ) :=
  types.filterMap (fun ty =>
    let c := (calculateTreeSpawnChance height soilFertility temperature ty).chance
    if 0 < c then some (ty, c) else none)

end Terrain

namespace Flow

/-- Per-cell state read and written by the neighbor and flow-field code
(src/main.js:213-260 and 558-642): the terrain height, the flow cache, and
the per-radius neighbor cache.  Cached neighbors are stored as coordinates,
which identify the neighbor `Cell` objects. -/
structure FCell where
  height : ℝ
  flowDirection : ℝ × ℝ
  flowDirectionCalculated : Bool
  neighborsInRadius : ℕ → Option (List (ℤ × ℤ))

/-- The owning grid's cell map (`this.grid.cells`). -/
structure FState where
  cells : ℤ × ℤ → Option FCell

/-- Write back one mutated cell object (in JS this is in-place mutation of
the object stored in the map). -/
def updateCell (st : FState) (c : ℤ × ℤ) (cell : FCell) : FState :=
  { cells := Function.update st.cells c (some cell) }

/-- Loop indices `-radius, ..., radius` of the neighbor enumeration. -/
def offsets (r : ℕ) : List ℤ :=
  (List.range (2 * r + 1)).map (fun i : ℕ => (i : ℤ) - r)

/-- Fresh enumeration inside `Cell.getNeighborsInRadius`
(src/main.js:567-583): nested `dx`/`dy` loops, skip the centre, keep the
coordinates present in `this.grid.cells`. -/
def neighborList (st : FState) (c : ℤ × ℤ) (r : ℕ) : List (ℤ × ℤ) :=
  (offsets r).flatMap (fun dx =>
    (offsets r).filterMap (fun dy =>
      if dx = 0 ∧ dy = 0 then none
      else if (st.cells (c.1 + dx, c.2 + dy)).isSome then some (c.1 + dx, c.2 + dy)
      else none))

/-- Model of `Cell.getNeighborsInRadius` (src/main.js:558-588): serve the
per-radius cache if present, otherwise enumerate and store.  The cell at
`c` exists whenever the method runs (it is a method of that cell); the
`none` branch is unreachable. -/
def getNeighborsInRadius (st : FState) (c : ℤ × ℤ) (r : ℕ) :
    List (ℤ × ℤ) × FState :=
  match st.cells c with
  | none => ([], st)
  | some cell =>
      match cell.neighborsInRadius r with
      | some l => (l, st)
      | none =>
          let l := neighborList st c r
          (l, updateCell st c
            { cell with
              neighborsInRadius := Function.update cell.neighborsInRadius r (some l) })

/-- Magnitude of a vector, Victor.js `magnitude` (`Math.sqrt(x*x + y*y)`). -/
noncomputable def vmagnitude (v : ℝ × ℝ) : ℝ :=
  Real.sqrt (v.1 * v.1 + v.2 * v.2)

/-- Victor.js `normalize`: divide by the length; the library maps a zero
vector to (1, 0).  Both call sites below only normalize nonzero vectors. -/
noncomputable def vnormalize (v : ℝ × ℝ) : ℝ × ℝ :=
  if vmagnitude v = 0 then (1, 0) else (v.1 / vmagnitude v, v.2 / vmagnitude v)

/-- Contribution of one neighbor to the flow sum (loop body of
`Cell.calculateFlowDirection`, src/main.js:600-612): the unit direction
from the cell to the neighbor scaled by `this.height - neighbor.height`.
The `none` branch is unreachable: neighbor lists hold only coordinates that
are present in the map. -/
noncomputable def contribOf (st : FState) (c : ℤ × ℤ) (h : ℝ) (n : ℤ × ℤ) : ℝ × ℝ :=
  match st.cells n with
  | none => (0, 0)
  | some ncell =>
      let heightDifference := h - ncell.height
      let d := vnormalize (((n.1 - c.1 : ℤ) : ℝ), ((n.2 - c.2 : ℤ) : ℝ))
      (d.1 * heightDifference, d.2 * heightDifference)

/-- Model of `Cell.calculateFlowDirection` (src/main.js:594-622): sum the
neighbor contributions over `getNeighborsInRadius(3)`, normalize if the sum
is nonzero, store and return. -/
noncomputable def calculateFlowDirection (st : FState) (c : ℤ × ℤ) :
    (ℝ × ℝ) × FState :=
  match st.cells c with
  | none => ((0, 0), st)
  | some cell =>
      let rn := getNeighborsInRadius st c 3
      let flowVector := rn.1.foldl (fun acc n => acc + contribOf rn.2 c cell.height n) (0, 0)
      let fd := if 0 < vmagnitude flowVector then vnormalize flowVector else (0, 0)
      match rn.2.cells c with
      | none => (fd, rn.2)
      | some cell1 => (fd, updateCell rn.2 c { cell1 with flowDirection := fd })

/-- Model of `Cell.getFlowDirection` (src/main.js:628-634): compute on first
call, cache, and serve the cache thereafter. -/
noncomputable def getFlowDirection (st : FState) (c : ℤ × ℤ) : (ℝ × ℝ) × FState :=
  match st.cells c with
  | none => ((0, 0), st)
  | some cell =>
      if cell.flowDirectionCalculated then (cell.flowDirection, st)
      else
        let rc := calculateFlowDirection st c
        match rc.2.cells c with
        | none => (rc.1, rc.2)
        | some cell1 =>
            (rc.1, updateCell rc.2 c
              { cell1 with flowDirection := rc.1, flowDirectionCalculated := true })

/-- Claim-side description of the radius-`r` neighborhood: the coordinates
of the cells existing in the grid map whose Chebyshev distance from `c` is
at least 1 and at most `r`. -/
def specNeighbors (st : FState) (c : ℤ × ℤ) (r : ℕ) : Finset (ℤ × ℤ) :=
  ((Finset.Icc (-(r : ℤ)) r ×ˢ Finset.Icc (-(r : ℤ)) r).filter
    (fun d => d ≠ (0, 0) ∧ (st.cells (c.1 + d.1, c.2 + d.2)).isSome)).image
    (fun d => (c.1 + d.1, c.2 + d.2))

/-- Claim-side flow sum: over all existing neighbors within Chebyshev
radius `r`, the unit direction to the neighbor scaled by the height drop. -/
noncomputable def specFlowSum (st : FState) (c : ℤ × ℤ) (h : ℝ) (r : ℕ) : ℝ × ℝ :=
  (specNeighbors st c r).sum (contribOf st c h)

/-- A cell as freshly constructed: flow not yet computed, no cached
neighbor lists. -/
noncomputable def freshFCell (h : ℝ) : FCell :=
  { height := h, flowDirection := (0, 0), flowDirectionCalculated := false,
    neighborsInRadius := fun _ => none }

/-- A grid map holding exactly one cell, at the origin. -/
noncomputable def oneCellMap : FState :=
  { cells := fun k => if k = (0, 0) then some (freshFCell 0) else none }

/-- State after the first `getNeighborsInRadius(1)` call on the origin cell
(which caches the then-empty neighbor list). -/
noncomputable def cachedMap : FState := (getNeighborsInRadius oneCellMap (0, 0) 1).2

/-- The grid then materializes the adjacent cell (0, 1), as `Grid.getCell`
does when the world grows. -/
noncomputable def grownMap : FState := updateCell cachedMap (0, 1) (freshFCell 0)

end Flow

/-!
Helper lemmas.
-/

namespace Index

lemma inv_init50 : Inv init50 := by
  intro e
  refine ⟨fun c hc => by simp [init50] at hc, fun _ c' => ?_⟩
  simp [init50]

/-! Normal forms of `step` in each branch. -/

lemma step_add_eq (s : GState) (e : ℕ) (p : ℚ × ℚ) :
    step s (.add e p) =
      { cellSize := s.cellSize
        mat := insert (worldToCell s p.1 p.2) s.mat
        mem := Function.update s.mem (worldToCell s p.1 p.2)
                 (insert e (s.mem (worldToCell s p.1 p.2)))
        pos := Function.update s.pos e p
        cur := Function.update s.cur e (some (worldToCell s p.1 p.2)) } := by
  simp [step, addEntity, setPos, getCellAtWorldPos, getCell, worldToCell]

lemma step_update_of_none (s : GState) (e : ℕ) (p : ℚ × ℚ) (he : s.cur e = none) :
    step s (.update e p) = step s (.add e p) := by
  simp [step, updateEntity, addEntity, setPos, getCellAtWorldPos, getCell, he]

lemma step_update_of_same (s : GState) (e : ℕ) (p : ℚ × ℚ)
    (he : s.cur e = some (worldToCell s p.1 p.2)) :
    step s (.update e p) =
      { cellSize := s.cellSize
        mat := insert (worldToCell s p.1 p.2) s.mat
        mem := s.mem
        pos := Function.update s.pos e p
        cur := s.cur } := by
  simp [step, updateEntity, setPos, getCellAtWorldPos, getCell, worldToCell, he]

lemma step_update_of_diff (s : GState) (e : ℕ) (p : ℚ × ℚ) (old : ℤ × ℤ)
    (he : s.cur e = some old) (hne : old ≠ worldToCell s p.1 p.2) :
    step s (.update e p) =
      { cellSize := s.cellSize
        mat := insert (worldToCell s p.1 p.2) s.mat
        mem := Function.update (Function.update s.mem old ((s.mem old).erase e))
                 (worldToCell s p.1 p.2)
                 (insert e (Function.update s.mem old ((s.mem old).erase e)
                   (worldToCell s p.1 p.2)))
        pos := Function.update s.pos e p
        cur := Function.update s.cur e (some (worldToCell s p.1 p.2)) } := by
  simp only [step, updateEntity, setPos, getCellAtWorldPos, getCell, worldToCell, he,
    Function.update_same]
  split
  · next hcond =>
      exact absurd (Option.some_inj.mp hcond)
        (fun h => hne (by simpa [worldToCell] using h))
  · rfl

lemma step_remove_of_none (s : GState) (e : ℕ) (he : s.cur e = none) :
    step s (.remove e) = s := by
  simp [step, removeEntity, he]

lemma step_remove_of_some (s : GState) (e : ℕ) (old : ℤ × ℤ) (he : s.cur e = some old) :
    step s (.remove e) =
      { s with
        mem := Function.update s.mem old ((s.mem old).erase e)
        cur := Function.update s.cur e none } := by
  simp [step, removeEntity, he]

/-! Preservation of `Inv` by each operation. -/

lemma inv_step_add {s : GState} {e : ℕ} {p : ℚ × ℚ}
    (hInv : Inv s) (he : s.cur e = none) : Inv (step s (.add e p)) := by
  rw [step_add_eq]
  intro f
  rcases hInv f with ⟨hsome, hnone⟩
  constructor
  · intro c hc
    simp only [Function.update_apply, cellOf, worldToCell] at hc ⊢
    by_cases hf : f = e
    · rw [if_pos hf, Option.some_inj] at hc
      subst hc
      subst hf
      refine ⟨Finset.mem_insert_self _ _, ?_, ?_, ?_⟩
      · simp
      · simp
      · intro c' hcm
        by_cases hcc : c' = (⌊p.1 / s.cellSize⌋, ⌊p.2 / s.cellSize⌋)
        · exact hcc
        · rw [if_neg hcc] at hcm
          exact absurd hcm (hnone he c')
    · rw [if_neg hf] at hc
      rcases hsome c hc with ⟨hmat, hmem, hcell, huniq⟩
      refine ⟨Finset.mem_insert_of_mem hmat, ?_, ?_, ?_⟩
      · by_cases hcc : c = (⌊p.1 / s.cellSize⌋, ⌊p.2 / s.cellSize⌋)
        · rw [if_pos hcc]
          rw [hcc] at hmem
          exact Finset.mem_insert_of_mem hmem
        · rw [if_neg hcc]; exact hmem
      · rw [if_neg hf]
        simpa [cellOf, worldToCell] using hcell
      · intro c' hcm
        by_cases hcc : c' = (⌊p.1 / s.cellSize⌋, ⌊p.2 / s.cellSize⌋)
        · rw [if_pos hcc] at hcm
          rcases Finset.mem_insert.mp hcm with h | h
          · exact absurd h hf
          · rw [hcc]; exact huniq _ h
        · rw [if_neg hcc] at hcm
          exact huniq _ hcm
  · intro hc
    simp only [Function.update_apply] at hc ⊢
    by_cases hf : f = e
    · rw [if_pos hf] at hc
      exact absurd hc (by simp)
    · rw [if_neg hf] at hc
      intro c'
      by_cases hcc : c' = worldToCell s p.1 p.2
      · rw [if_pos (by simpa [worldToCell] using hcc)]
        intro hcm
        rcases Finset.mem_insert.mp hcm with h | h
        · exact hf h
        · exact hnone hc _ h
      · rw [if_neg (by simpa [worldToCell] using hcc)]
        exact hnone hc c'

lemma inv_step_remove {s : GState} {e : ℕ} (hInv : Inv s) : Inv (step s (.remove e)) := by
  rcases hcur : s.cur e with _ | old
  · rw [step_remove_of_none s e hcur]; exact hInv
  · rw [step_remove_of_some s e old hcur]
    intro f
    rcases hInv f with ⟨hsome, hnone⟩
    constructor
    · intro c hc
      simp only [Function.update_apply, cellOf, worldToCell] at hc ⊢
      by_cases hf : f = e
      · rw [if_pos hf] at hc
        exact absurd hc (by simp)
      · rw [if_neg hf] at hc
        rcases hsome c hc with ⟨hmat, hmem, hcell, huniq⟩
        refine ⟨hmat, ?_, by simpa [cellOf, worldToCell] using hcell, ?_⟩
        · by_cases hcc : c = old
          · rw [if_pos hcc]
            rw [hcc] at hmem
            exact Finset.mem_erase.mpr ⟨hf, hmem⟩
          · rw [if_neg hcc]; exact hmem
        · intro c' hcm
          by_cases hcc : c' = old
          · rw [if_pos hcc] at hcm
            exact huniq _ (hcc ▸ Finset.mem_of_mem_erase hcm)
          · rw [if_neg hcc] at hcm
            exact huniq _ hcm
    · intro hc
      simp only [Function.update_apply] at hc ⊢
      by_cases hf : f = e
      · subst hf
        intro c'
        by_cases hcc : c' = old
        · rw [if_pos hcc]
          exact Finset.not_mem_erase _ _
        · rw [if_neg hcc]
          intro hcm
          rcases hsome old hcur with ⟨_, _, _, huniq⟩
          exact hcc (huniq _ hcm)
      · rw [if_neg hf] at hc
        intro c'
        by_cases hcc : c' = old
        · rw [if_pos hcc]
          intro hcm
          exact hnone hc _ (hcc ▸ Finset.mem_of_mem_erase hcm)
        · rw [if_neg hcc]
          exact hnone hc c'

lemma inv_step_update {s : GState} {e : ℕ} {p : ℚ × ℚ}
    (hInv : Inv s) : Inv (step s (.update e p)) := by
  rcases hcur : s.cur e with _ | old
  · rw [step_update_of_none s e p hcur]
    exact inv_step_add hInv hcur
  · by_cases hsameC : old = worldToCell s p.1 p.2
    · subst hsameC
      rw [step_update_of_same s e p hcur]
      intro f
      rcases hInv f with ⟨hsome, hnone⟩
      constructor
      · intro c hc
        simp only [Function.update_apply, cellOf, worldToCell] at hc ⊢
        rcases hsome c hc with ⟨hmat, hmem, hcell, huniq⟩
        refine ⟨Finset.mem_insert_of_mem hmat, hmem, ?_, huniq⟩
        by_cases hf : f = e
        · rw [if_pos hf]
          subst hf
          rw [hcur, Option.some_inj] at hc
          rw [← hc]
          simp [worldToCell]
        · rw [if_neg hf]
          simpa [cellOf, worldToCell] using hcell
      · intro hc
        exact hnone hc
    · rw [step_update_of_diff s e p old hcur hsameC]
      obtain ⟨_, _, _, huniqE⟩ := (hInv e).1 old hcur
      intro f
      rcases hInv f with ⟨hsome, hnone⟩
      constructor
      · intro c hc
        simp only [Function.update_apply, cellOf, worldToCell] at hc ⊢
        by_cases hf : f = e
        · rw [if_pos hf, Option.some_inj] at hc
          subst hc
          subst hf
          refine ⟨Finset.mem_insert_self _ _, ?_, ?_, ?_⟩
          · simp
          · simp
          · intro c' hcm
            by_cases hcc : c' = (⌊p.1 / s.cellSize⌋, ⌊p.2 / s.cellSize⌋)
            · exact hcc
            · rw [if_neg hcc] at hcm
              by_cases hoo : c' = old
              · rw [if_pos hoo] at hcm
                exact absurd hcm (Finset.not_mem_erase _ _)
              · rw [if_neg hoo] at hcm
                exact absurd (huniqE _ hcm) hoo
        · rw [if_neg hf] at hc
          rcases hsome c hc with ⟨hmat, hmem, hcell, huniq⟩
          have hmem2 : f ∈ (if c = old then (s.mem old).erase e else s.mem c) := by
            by_cases hoo : c = old
            · rw [if_pos hoo]
              rw [hoo] at hmem
              exact Finset.mem_erase.mpr ⟨hf, hmem⟩
            · rw [if_neg hoo]; exact hmem
          refine ⟨Finset.mem_insert_of_mem hmat, ?_, ?_, ?_⟩
          · by_cases hcc : c = (⌊p.1 / s.cellSize⌋, ⌊p.2 / s.cellSize⌋)
            · rw [if_pos hcc]
              refine Finset.mem_insert_of_mem ?_
              rw [← hcc]
              exact hmem2
            · rw [if_neg hcc]
              exact hmem2
          · rw [if_neg hf]
            simpa [cellOf, worldToCell] using hcell
          · intro c' hcm
            by_cases hcc : c' = (⌊p.1 / s.cellSize⌋, ⌊p.2 / s.cellSize⌋)
            · rw [if_pos hcc] at hcm
              rcases Finset.mem_insert.mp hcm with h | h
              · exact absurd h hf
              · by_cases hoo : (⌊p.1 / s.cellSize⌋, ⌊p.2 / s.cellSize⌋) = old
                · rw [if_pos hoo] at h
                  rw [hcc]
                  exact huniq _ (hoo ▸ Finset.mem_of_mem_erase h)
                · rw [if_neg hoo] at h
                  rw [hcc]
                  exact huniq _ h
            · rw [if_neg hcc] at hcm
              by_cases hoo : c' = old
              · rw [if_pos hoo] at hcm
                exact huniq _ (hoo ▸ Finset.mem_of_mem_erase hcm)
              · rw [if_neg hoo] at hcm
                exact huniq _ hcm
      · intro hc
        simp only [Function.update_apply] at hc ⊢
        by_cases hf : f = e
        · rw [if_pos hf] at hc
          exact absurd hc (by simp)
        · rw [if_neg hf] at hc
          intro c'
          have hsub : f ∉ (if c' = old then (s.mem old).erase e else s.mem c') := by
            by_cases hoo : c' = old
            · rw [if_pos hoo]
              intro hcm
              exact hnone hc _ (hoo ▸ Finset.mem_of_mem_erase hcm)
            · rw [if_neg hoo]
              exact hnone hc c'
          by_cases hcc : c' = worldToCell s p.1 p.2
          · rw [if_pos (by simpa [worldToCell] using hcc)]
            intro hcm
            rcases Finset.mem_insert.mp hcm with h | h
            · exact hf h
            · rw [← hcc] at h
              exact hsub h
          · rw [if_neg (by simpa [worldToCell] using hcc)]
            exact hsub

/-- Invariant preservation along a whole call sequence in which `addEntity`
is only applied to untracked entities. -/
lemma inv_run {s : GState} {ops : List Op} (hInv : Inv s) (hOk : Ok s ops) :
    Inv (run s ops) := by
  induction ops generalizing s with
  | nil => exact hInv
  | cons op t ih =>
      rcases hOk with ⟨hop, ht⟩
      rcases op with ⟨e, p⟩ | ⟨e, p⟩ | e
      · exact ih (inv_step_add hInv hop) ht
      · exact ih (inv_step_update hInv) ht
      · exact ih (inv_step_remove hInv) ht



/-! Evaluation of the concrete example states. -/

lemma oneTracked_cur : oneTracked.cur 0 = some (0, 0) := by
  rw [oneTracked, step_add_eq]
  dsimp only
  rw [Function.update_same, worldToCell]
  norm_num [init50, Prod.mk.injEq]

lemma oneTracked_pos : oneTracked.pos 0 = (3, 4) := by
  rw [oneTracked, step_add_eq]
  dsimp only
  rw [Function.update_same]

lemma doubleAdd_cur : doubleAdd.cur 0 = some (2, 0) := by
  have h1 : doubleAdd = step (step init50 (.add 0 (0, 0))) (.add 0 (100, 0)) := rfl
  rw [h1, step_add_eq]
  dsimp only
  rw [Function.update_same, worldToCell, step_add_eq]
  dsimp only
  norm_num [init50, Prod.mk.injEq]

lemma doubleAdd_mem00 : 0 ∈ doubleAdd.mem (0, 0) := by
  have h1 : doubleAdd = step (step init50 (.add 0 (0, 0))) (.add 0 (100, 0)) := rfl
  have hw0 : worldToCell init50 0 0 = (0, 0) := by
    rw [worldToCell]
    norm_num [init50, Prod.mk.injEq]
  have hw1 : worldToCell (step init50 (.add 0 (0, 0))) 100 0 = (2, 0) := by
    rw [worldToCell, step_add_eq]
    dsimp only
    norm_num [init50, Prod.mk.injEq]
  rw [h1, step_add_eq]
  dsimp only
  rw [hw1, Function.update_noteq (by decide : ((0, 0) : ℤ × ℤ) ≠ (2, 0)),
    step_add_eq]
  dsimp only
  rw [hw0, Function.update_same]
  exact Finset.mem_insert_self 0 _


end Index

namespace Terrain

lemma randomGradient_spec (s : PN) (ix iy : ℤ) (h : PNOk s) :
    (randomGradient s ix iy).1 = pureGradient s.seed ix iy ∧
    (randomGradient s ix iy).2.seed = s.seed ∧ PNOk (randomGradient s ix iy).2 := by
  rcases h with ⟨hg, hm⟩
  cases hc : s.gradients (ix, iy) with
  | some g =>
      simp only [randomGradient, hc]
      exact ⟨hg ix iy g hc, trivial, hg, hm⟩
  | none =>
      simp only [randomGradient, hc]
      refine ⟨trivial, trivial, ?_, hm⟩
      intro a b g' hg'
      dsimp only at hg' ⊢
      rw [Function.update_apply] at hg'
      by_cases heq : ((a, b) : ℤ × ℤ) = (ix, iy)
      · rw [if_pos heq] at hg'
        have ha : a = ix := congrArg Prod.fst heq
        have hb : b = iy := congrArg Prod.snd heq
        subst ha; subst hb
        exact (Option.some_inj.mp hg').symm
      · rw [if_neg heq] at hg'
        exact hg a b g' hg'

lemma dotGridGradient_spec (s : PN) (ix iy : ℤ) (x y : ℝ) (h : PNOk s) :
    (dotGridGradient s ix iy x y).1 = pureDotGridGradient s.seed ix iy x y ∧
    (dotGridGradient s ix iy x y).2.seed = s.seed ∧
    PNOk (dotGridGradient s ix iy x y).2 := by
  obtain ⟨h1, h2, h3⟩ := randomGradient_spec s ix iy h
  refine ⟨?_, h2, h3⟩
  simp only [dotGridGradient, pureDotGridGradient, h1]

lemma noise_spec (s : PN) (x y : ℝ) (h : PNOk s) :
    (noise s x y).1 = pureNoise s.seed x y ∧
    (noise s x y).2.seed = s.seed ∧ PNOk (noise s x y).2 := by
  cases hc : s.memory (x, y) with
  | some v =>
      refine ⟨?_, ?_, ?_⟩
      · simp only [noise, hc]
        exact h.2 x y v hc
      · simp only [noise, hc]
      · simp only [noise, hc]
        exact h
  | none =>
      obtain ⟨e0, q0, k0⟩ := dotGridGradient_spec s ⌊x⌋ ⌊y⌋ x y h
      obtain ⟨e1, q1, k1⟩ := dotGridGradient_spec _ (⌊x⌋ + 1) ⌊y⌋ x y k0
      obtain ⟨e2, q2, k2⟩ := dotGridGradient_spec _ ⌊x⌋ (⌊y⌋ + 1) x y k1
      obtain ⟨e3, q3, k3⟩ := dotGridGradient_spec _ (⌊x⌋ + 1) (⌊y⌋ + 1) x y k2
      rw [q0] at e1 q1
      rw [q1] at e2 q2
      rw [q2] at e3 q3
      have hfst : (noise s x y).1 = pureNoise s.seed x y := by
        simp only [noise, hc, pureNoise]
        rw [e0, e1, e2, e3]
      have hseed : (noise s x y).2.seed = s.seed := by
        simp only [noise, hc]
        exact q3
      refine ⟨hfst, hseed, ?_, ?_⟩
      · intro a b g' hg'
        have hg'' : (noise s x y).2.gradients (a, b) = some g' := hg'
        simp only [noise, hc] at hg''
        have hres := k3.1 a b g' hg''
        rw [q3] at hres
        rw [hseed]
        exact hres
      · intro a b v hv
        have hv' : (noise s x y).2.memory (a, b) = some v := hv
        simp only [noise, hc] at hv'
        rw [Function.update_apply] at hv'
        rw [show (noise s x y).2.seed = s.seed from hseed]
        by_cases heq : ((a, b) : ℝ × ℝ) = (x, y)
        · rw [if_pos heq] at hv'
          have ha : a = x := congrArg Prod.fst heq
          have hb : b = y := congrArg Prod.snd heq
          subst ha; subst hb
          rw [← Option.some_inj.mp hv']
          have hred := hfst
          simp only [noise, hc] at hred
          exact hred
        · rw [if_neg heq] at hv'
          have hres := k3.2 a b v hv'
          rw [q3] at hres
          exact hres

end Terrain

namespace Terrain

lemma mkCell_spec (g : TGrid) (x y : ℤ) (hg : GOk g) :
    (mkCell g x y).1 = pureCell g.freqs x y ∧ GOk (mkCell g x y).2 ∧
    (mkCell g x y).2.freqs = g.freqs ∧ (mkCell g x y).2.cells = g.cells := by
  obtain ⟨hs, hh, ht, ks, kh, kt, kc⟩ := hg
  obtain ⟨es, qs, kks⟩ :=
    noise_spec g.soilNoiseGenerator (x * g.freqs.soilFertility) (y * g.freqs.soilFertility) ks
  obtain ⟨eh, qh, kkh⟩ :=
    noise_spec g.heightNoiseGenerator (x * g.freqs.height) (y * g.freqs.height) kh
  obtain ⟨et, qt, kkt⟩ :=
    noise_spec g.temperatureNoiseGenerator (x * g.freqs.temperature) (y * g.freqs.temperature) kt
  rw [hs] at es
  rw [hh] at eh
  rw [ht] at et
  refine ⟨?_, ⟨?_, ?_, ?_, kks, kkh, kkt, ?_⟩, rfl, rfl⟩
  · simp only [mkCell, pureCell]
    rw [es, eh, et]
  · simpa only [mkCell] using qs.trans hs
  · simpa only [mkCell] using qh.trans hh
  · simpa only [mkCell] using qt.trans ht
  · intro k c hkc
    exact kc k c hkc

lemma getCell_fst (g : TGrid) (x y : ℤ) (hg : GOk g) :
    (Terrain.getCell g x y).1 = pureCell g.freqs x y := by
  cases hc : g.cells (x, y) with
  | some c =>
      simp only [getCell, hc]
      exact hg.2.2.2.2.2.2 (x, y) c hc
  | none =>
      simp only [getCell, hc]
      exact (mkCell_spec g x y hg).1

lemma gok_fresh (f : Freqs) : GOk (freshTGrid f) := by
  refine ⟨rfl, rfl, rfl,
    ⟨fun ix iy g hg => by simp [freshTGrid] at hg,
     fun a b v hv => by simp [freshTGrid] at hv⟩,
    ⟨fun ix iy g hg => by simp [freshTGrid] at hg,
     fun a b v hv => by simp [freshTGrid] at hv⟩,
    ⟨fun ix iy g hg => by simp [freshTGrid] at hg,
     fun a b v hv => by simp [freshTGrid] at hv⟩,
    fun k c hc => by simp [freshTGrid] at hc⟩

end Terrain

namespace Flow

lemma mem_offsets {r : ℕ} {i : ℤ} : i ∈ offsets r ↔ -(r : ℤ) ≤ i ∧ i ≤ r := by
  unfold offsets
  simp only [List.mem_map, List.mem_range]
  constructor
  · rintro ⟨j, hj, rfl⟩
    omega
  · rintro ⟨h1, h2⟩
    exact ⟨(i + r).toNat, by omega, by omega⟩

lemma offsets_nodup (r : ℕ) : (offsets r).Nodup := by
  unfold offsets
  refine List.Nodup.map (fun a b hab => ?_) (List.nodup_range _)
  omega

lemma mem_neighborList {st : FState} {c : ℤ × ℤ} {r : ℕ} {n : ℤ × ℤ} :
    n ∈ neighborList st c r ↔
      (-(r : ℤ) ≤ n.1 - c.1 ∧ n.1 - c.1 ≤ r ∧ -(r : ℤ) ≤ n.2 - c.2 ∧ n.2 - c.2 ≤ r ∧
       n ≠ c ∧ (st.cells n).isSome) := by
  obtain ⟨n1, n2⟩ := n
  obtain ⟨c1, c2⟩ := c
  unfold neighborList
  simp only [List.mem_flatMap, List.mem_filterMap, mem_offsets]
  constructor
  · rintro ⟨dx, ⟨hdx1, hdx2⟩, dy, ⟨hdy1, hdy2⟩, hsome⟩
    by_cases h0 : dx = 0 ∧ dy = 0
    · rw [if_pos h0] at hsome
      cases hsome
    · rw [if_neg h0] at hsome
      by_cases hex : (st.cells (c1 + dx, c2 + dy)).isSome = true
      · rw [if_pos hex] at hsome
        have hn := Option.some_inj.mp hsome
        have ha : c1 + dx = n1 := congrArg Prod.fst hn
        have hb : c2 + dy = n2 := congrArg Prod.snd hn
        refine ⟨by omega, by omega, by omega, by omega, ?_, ?_⟩
        · intro hnc
          have e1 : n1 = c1 := congrArg Prod.fst hnc
          have e2 : n2 = c2 := congrArg Prod.snd hnc
          exact h0 ⟨by omega, by omega⟩
        · rw [← hn]
          exact hex
      · rw [if_neg hex] at hsome
        cases hsome
  · rintro ⟨h1, h2, h3, h4, hne, hsome⟩
    refine ⟨n1 - c1, ⟨by omega, by omega⟩, n2 - c2, ⟨by omega, by omega⟩, ?_⟩
    have hn : ((c1 + (n1 - c1) : ℤ), (c2 + (n2 - c2) : ℤ)) = ((n1 : ℤ), (n2 : ℤ)) := by
      rw [Prod.mk.injEq]
      omega
    rw [hn, if_neg, if_pos hsome]
    rintro ⟨z1, z2⟩
    apply hne
    rw [Prod.mk.injEq]
    omega

lemma neighborList_nodup (st : FState) (c : ℤ × ℤ) (r : ℕ) :
    (neighborList st c r).Nodup := by
  have main_of : ∀ dx dy : ℤ, ∀ b : ℤ × ℤ,
      (if dx = 0 ∧ dy = 0 then none
       else if (st.cells (c.1 + dx, c.2 + dy)).isSome then some (c.1 + dx, c.2 + dy)
       else none) = some b → b = (c.1 + dx, c.2 + dy) := by
    intro dx dy b h
    split_ifs at h
    all_goals cases h
    all_goals rfl
  have key : ∀ dx : ℤ, ∀ b ∈ (offsets r).filterMap (fun dy =>
      if dx = 0 ∧ dy = 0 then none
      else if (st.cells (c.1 + dx, c.2 + dy)).isSome then some (c.1 + dx, c.2 + dy)
      else none), b.1 = c.1 + dx := by
    intro dx b hb
    rw [List.mem_filterMap] at hb
    obtain ⟨dy, _, hval⟩ := hb
    rw [main_of dx dy b hval]
  unfold neighborList
  rw [List.nodup_flatMap]
  constructor
  · intro dx _
    refine List.Nodup.filterMap (fun a a' b hb hb' => ?_) (offsets_nodup r)
    rw [Option.mem_def] at hb hb'
    have e1 := congrArg Prod.snd (main_of dx a b hb)
    have e2 := congrArg Prod.snd (main_of dx a' b hb')
    dsimp at e1 e2
    omega
  · refine List.Pairwise.imp ?_ (offsets_nodup r)
    intro a b hab
    intro x hx hx'
    have ha := key a x hx
    have hb := key b x hx'
    exact hab (by omega)

lemma neighborList_toFinset (st : FState) (c : ℤ × ℤ) (r : ℕ) :
    (neighborList st c r).toFinset = specNeighbors st c r := by
  ext n
  rw [List.mem_toFinset, mem_neighborList]
  unfold specNeighbors
  simp only [Finset.mem_image, Finset.mem_filter, Finset.mem_product, Finset.mem_Icc]
  constructor
  · rintro ⟨h1, h2, h3, h4, hne, hsome⟩
    refine ⟨(n.1 - c.1, n.2 - c.2), ⟨⟨⟨h1, h2⟩, h3, h4⟩, ?_, ?_⟩, ?_⟩
    · intro h0
      apply hne
      have e1 := congrArg Prod.fst h0
      have e2 := congrArg Prod.snd h0
      dsimp at e1 e2
      obtain ⟨m1, m2⟩ := n
      obtain ⟨k1, k2⟩ := c
      rw [Prod.mk.injEq]
      omega
    · have hn : ((c.1 + (n.1 - c.1) : ℤ), (c.2 + (n.2 - c.2) : ℤ)) = n := by
        obtain ⟨m1, m2⟩ := n
        obtain ⟨k1, k2⟩ := c
        rw [Prod.mk.injEq]
        omega
      rw [hn]
      exact hsome
    · obtain ⟨m1, m2⟩ := n
      obtain ⟨k1, k2⟩ := c
      rw [Prod.mk.injEq]
      omega
  · rintro ⟨⟨d1, d2⟩, ⟨⟨⟨g1, g2⟩, g3, g4⟩, hd0, hdsome⟩, rfl⟩
    refine ⟨by omega, by omega, by omega, by omega, ?_, hdsome⟩
    intro hcc
    apply hd0
    have e1 := congrArg Prod.fst hcc
    have e2 := congrArg Prod.snd hcc
    dsimp at e1 e2
    rw [Prod.mk.injEq]
    omega

end Flow

namespace Flow

lemma foldl_add_eq_sum (f : ℤ × ℤ → ℝ × ℝ) (l : List (ℤ × ℤ)) (init : ℝ × ℝ) :
    l.foldl (fun acc n => acc + f n) init = init + (l.map f).sum := by
  induction l generalizing init with
  | nil => simp
  | cons a t ih => simp [ih, add_assoc]

lemma flowSum_eq (st : FState) (c : ℤ × ℤ) (h : ℝ) (r : ℕ) :
    ((neighborList st c r).map (contribOf st c h)).sum = specFlowSum st c h r := by
  unfold specFlowSum
  rw [← neighborList_toFinset st c r, List.sum_toFinset _ (neighborList_nodup st c r)]

lemma getNeighborsInRadius_fresh (st : FState) (c : ℤ × ℤ) (cell : FCell) (r : ℕ)
    (hc : st.cells c = some cell) (hcache : cell.neighborsInRadius r = none) :
    getNeighborsInRadius st c r =
      (neighborList st c r,
       updateCell st c
         { cell with neighborsInRadius :=
             Function.update cell.neighborsInRadius r (some (neighborList st c r)) }) := by
  simp only [getNeighborsInRadius, hc, hcache]

lemma getNeighborsInRadius_cached (st : FState) (c : ℤ × ℤ) (cell : FCell) (r : ℕ)
    (l : List (ℤ × ℤ)) (hc : st.cells c = some cell)
    (hl : cell.neighborsInRadius r = some l) :
    getNeighborsInRadius st c r = (l, st) := by
  simp only [getNeighborsInRadius, hc, hl]

lemma contribOf_updateCache (st : FState) (c : ℤ × ℤ) (cell : FCell)
    (f : ℕ → Option (List (ℤ × ℤ))) (h : ℝ) (hc : st.cells c = some cell) :
    contribOf (updateCell st c { cell with neighborsInRadius := f }) c h =
      contribOf st c h := by
  funext n
  unfold contribOf updateCell
  dsimp only
  rw [Function.update_apply]
  by_cases hn : n = c
  · rw [if_pos hn, hn, hc]
  · rw [if_neg hn]

end Flow

/-!
Claim theorems.
-/

namespace Index

/-- C1 (amended): after any finite sequence of `addEntity` / `updateEntity`
/ `removeEntity` calls, each applied to an entity at its then-current
position, in which `addEntity` is only invoked on entities that are not
currently tracked (which is the repository's only usage: the `Entity`
constructor), every tracked entity is a member of exactly one cell's
membership set, namely that of its `currentCell`, which is the cell whose
coordinate range contains the entity's current position; an untracked
entity is in no cell's set.  The restriction on `addEntity` is forced by
the counterexample: the source never removes an entity from its previous
cell when `addEntity` is invoked on an already-tracked entity. -/
theorem index_invariant_run (s : GState) (ops : List Op)
    (hInv : Inv s) (hOk : Ok s ops) : Inv (run s ops) :=
  inv_run hInv hOk

/-- Witness for `index_invariant_run`: the fresh grid and a concrete
add-update-remove sequence. -/
theorem index_invariant_run_witness :
    Inv (run init50 [.add 0 (0, 0), .update 0 (100, 0), .remove 0]) :=
  index_invariant_run init50 [.add 0 (0, 0), .update 0 (100, 0), .remove 0]
    inv_init50 ⟨rfl, trivial, trivial, trivial⟩

/-- C1 counterexample: `Grid.addEntity` never removes an entity from its
previous cell, so invoking it again after the entity moved leaves the
entity in two membership sets, and the claimed invariant fails. -/
theorem index_claim_counterexample : ¬ ClaimInv doubleAdd := by
  intro h
  obtain ⟨hmem, hcell, huniq⟩ := h 0 (2, 0) doubleAdd_cur
  exact absurd (huniq (0, 0) doubleAdd_mem00) (by decide)

/-- C3: `worldToCell` is mathematical floor division: with positive
`cellSize` it returns exactly the cell whose half-open coordinate range
contains the point (so negative coordinates round down rather than toward
zero), and with `cellSize = 50` the spec's concrete inputs map to
`(-1,-1)`, `(0,0)`, `(1,0)`, and `getCellAtWorldPos(120, -30)` returns the
same cell as `getCell(2, -1)`. -/
theorem worldToCell_floor :
    (∀ (s : GState) (x y : ℚ) (k l : ℤ), 0 < s.cellSize →
      (worldToCell s x y = (k, l) ↔
        ((k : ℚ) * s.cellSize ≤ x ∧ x < ((k : ℚ) + 1) * s.cellSize ∧
         (l : ℚ) * s.cellSize ≤ y ∧ y < ((l : ℚ) + 1) * s.cellSize))) ∧
    (∀ s : GState, s.cellSize = 50 →
      worldToCell s (-1) (-1) = (-1, -1) ∧
      worldToCell s 49 0 = (0, 0) ∧
      worldToCell s 50 0 = (1, 0) ∧
      (getCellAtWorldPos s 120 (-30)).1 = (getCell s (2, -1)).1) := by
  constructor
  · intro s x y k l hcs
    rw [worldToCell, Prod.mk.injEq, Int.floor_eq_iff, Int.floor_eq_iff,
      le_div_iff₀ hcs, div_lt_iff₀ hcs, le_div_iff₀ hcs, div_lt_iff₀ hcs]
    tauto
  · intro s hcs
    refine ⟨?_, ?_, ?_, ?_⟩ <;>
      · simp only [worldToCell, getCellAtWorldPos, getCell, hcs, Prod.mk.injEq]
        norm_num

/-- Witness for `worldToCell_floor`: both conjuncts applied at the fresh
grid (cellSize 50). -/
theorem worldToCell_floor_witness :
    (worldToCell init50 3 4 = (0, 0) ↔
      (((0 : ℤ) : ℚ) * init50.cellSize ≤ 3 ∧
       (3 : ℚ) < (((0 : ℤ) : ℚ) + 1) * init50.cellSize ∧
       ((0 : ℤ) : ℚ) * init50.cellSize ≤ 4 ∧
       (4 : ℚ) < (((0 : ℤ) : ℚ) + 1) * init50.cellSize)) ∧
    worldToCell init50 (-1) (-1) = (-1, -1) :=
  ⟨worldToCell_floor.1 init50 3 4 0 0 (by decide),
   (worldToCell_floor.2 init50 rfl).1⟩

/-- C5: while the spatial index is consistent (`Inv`), with positive
`cellSize` and a nonnegative radius, a tracked entity is in the set
returned by `getEntitiesInRadius(cx, cy, r)` iff its squared Euclidean
distance from the centre is at most `r·r` (equivalently `√(dx²+dy²) ≤ r`):
the boundary is inclusive, an entity at distance exactly `r` is returned
and one farther away is not. -/
theorem getEntitiesInRadius_mem_iff (s : GState) (cx cy r : ℚ) (e : ℕ) (c : ℤ × ℤ)
    (hcs : 0 < s.cellSize) (hr : 0 ≤ r) (hInv : Inv s) (htr : s.cur e = some c) :
    e ∈ (getEntitiesInRadius s cx cy r).1 ↔
      ((s.pos e).1 - cx) * ((s.pos e).1 - cx) +
        ((s.pos e).2 - cy) * ((s.pos e).2 - cy) ≤ r * r := by
  obtain ⟨hmat, hmem, hcell, huniq⟩ := (hInv e).1 c htr
  constructor
  · intro hin
    simp only [getEntitiesInRadius, Finset.mem_biUnion] at hin
    obtain ⟨cc, _, hino⟩ := hin
    by_cases hex : cc ∈ s.mat
    · rw [if_pos hex] at hino
      exact (Finset.mem_filter.mp hino).2.2
    · rw [if_neg hex] at hino
      exact absurd hino (Finset.not_mem_empty e)
  · intro hdist
    have hdx2 : ((s.pos e).1 - cx) * ((s.pos e).1 - cx) ≤ r * r := by
      nlinarith [mul_self_nonneg ((s.pos e).2 - cy)]
    have hdy2 : ((s.pos e).2 - cy) * ((s.pos e).2 - cy) ≤ r * r := by
      nlinarith [mul_self_nonneg ((s.pos e).1 - cx)]
    have hx1 : cx - r ≤ (s.pos e).1 := by nlinarith
    have hx2 : (s.pos e).1 ≤ cx + r := by nlinarith
    have hy1 : cy - r ≤ (s.pos e).2 := by nlinarith
    have hy2 : (s.pos e).2 ≤ cy + r := by nlinarith
    have hc1 : c.1 = ⌊(s.pos e).1 / s.cellSize⌋ := congrArg Prod.fst hcell
    have hc2 : c.2 = ⌊(s.pos e).2 / s.cellSize⌋ := congrArg Prod.snd hcell
    simp only [getEntitiesInRadius, Finset.mem_biUnion]
    refine ⟨c, ?_, ?_⟩
    · rw [Finset.mem_product]
      constructor
      · rw [Finset.mem_Icc, hc1]
        exact ⟨Int.floor_le_floor ((div_le_div_iff_of_pos_right hcs).mpr hx1),
          Int.floor_le_floor ((div_le_div_iff_of_pos_right hcs).mpr hx2)⟩
      · rw [Finset.mem_Icc, hc2]
        exact ⟨Int.floor_le_floor ((div_le_div_iff_of_pos_right hcs).mpr hy1),
          Int.floor_le_floor ((div_le_div_iff_of_pos_right hcs).mpr hy2)⟩
    · rw [if_pos hmat]
      exact Finset.mem_filter.mpr ⟨hmem, hr, hdist⟩

/-- Witness for `getEntitiesInRadius_mem_iff`: in the one-entity state the
entity at (3,4) lies at distance exactly 5 from the origin and is returned
by `getEntitiesInRadius(0, 0, 5)` (inclusive boundary). -/
theorem getEntitiesInRadius_mem_iff_witness :
    0 ∈ (getEntitiesInRadius oneTracked 0 0 5).1 := by
  refine (getEntitiesInRadius_mem_iff oneTracked 0 0 5 0 (0, 0) (by decide) (by decide)
    (inv_step_add inv_init50 rfl) oneTracked_cur).mpr ?_
  rw [oneTracked_pos]
  norm_num

/-- C10: `Grid.clear` empties every cell's membership set and resets the
cell map to empty, but leaves every entity's position and `currentCell`
untouched: an entity tracked before the call still holds a non-null
reference to a cell coordinate that is no longer materialized and whose
membership set no longer contains it — `clear` does not untrack entities
the way `removeEntity` does. -/
theorem clear_stale_backrefs (s : GState) :
    (clearG s).mat = ∅ ∧ (∀ k, (clearG s).mem k = ∅) ∧
    (clearG s).cur = s.cur ∧ (clearG s).pos = s.pos ∧
    (∀ e c, s.cur e = some c →
      (clearG s).cur e = some c ∧ c ∉ (clearG s).mat ∧ e ∉ (clearG s).mem c) := by
  refine ⟨rfl, fun k => rfl, rfl, rfl, fun e c hc => ⟨hc, ?_, ?_⟩⟩
  · exact Finset.not_mem_empty c
  · exact Finset.not_mem_empty e

/-- Witness for `clear_stale_backrefs`: the one-entity state. -/
theorem clear_stale_backrefs_witness :
    (clearG oneTracked).cur 0 = some (0, 0) ∧
    (0, 0) ∉ (clearG oneTracked).mat ∧ 0 ∉ (clearG oneTracked).mem (0, 0) :=
  (clear_stale_backrefs oneTracked).2.2.2.2 0 (0, 0) oneTracked_cur

end Index

/-- C8: the spatial queries never create or store a cell.
`Grid.getEntitiesInRadius` and `Grid.getEntitiesInArea` return the grid
state unchanged (they read `this.cells[key]` without the lazy-create
path), and `Cell.getNeighborsInRadius` — which may write the queried
cell's neighbor cache — leaves the set of materialized coordinates of the
grid map exactly as it was. -/
theorem queries_do_not_create_cells :
    (∀ (s : Index.GState) (cx cy r : ℚ), (Index.getEntitiesInRadius s cx cy r).2 = s) ∧
    (∀ (s : Index.GState) (x y w h : ℚ), (Index.getEntitiesInArea s x y w h).2 = s) ∧
    (∀ (st : Flow.FState) (c : ℤ × ℤ) (r : ℕ) (k : ℤ × ℤ),
      ((Flow.getNeighborsInRadius st c r).2.cells k).isSome = (st.cells k).isSome) := by
  refine ⟨fun s cx cy r => rfl, fun s x y w h => rfl, fun st c r k => ?_⟩
  cases hc : st.cells c with
  | none => simp only [Flow.getNeighborsInRadius, hc]
  | some cell =>
      cases hl : cell.neighborsInRadius r with
      | some l => simp only [Flow.getNeighborsInRadius, hc, hl]
      | none =>
          simp only [Flow.getNeighborsInRadius, hc, hl, Flow.updateCell]
          rw [Function.update_apply]
          by_cases hk : k = c
          · rw [if_pos hk, hk, hc]
            rfl
          · rw [if_neg hk]

namespace Terrain

lemma flags_spec (h t : ℝ) :
    (waterFlag h ↔ h < 0.4) ∧ (beachFlag h ↔ (0.4 < h ∧ h < 0.45)) ∧
    (frozenFlag t ↔ t < 0.3) ∧ (desertFlag t ↔ 0.7 < t) ∧
    ¬(waterFlag h ∧ beachFlag h) ∧ (h = 0.4 → ¬waterFlag h ∧ ¬beachFlag h) := by
  unfold waterFlag beachFlag frozenFlag desertFlag
  refine ⟨Iff.rfl, Iff.rfl, Iff.rfl, Iff.rfl, ?_, ?_⟩
  · rintro ⟨h1, h2, _⟩
    linarith
  · intro he
    subst he
    constructor
    · intro hlt
      exact absurd hlt (lt_irrefl _)
    · rintro ⟨hlt, _⟩
      exact absurd hlt (lt_irrefl _)

/-- C2 counterexample: the source computes
`this.beach = this.height > 0.4 && this.height < 0.45` with a strict lower
bound (src/main.js:251), so the beach flag is false at height exactly 0.4,
whereas the claim asserts a cell of height exactly 0.4 has beach = true. -/
theorem beach_threshold_counterexample : ¬ beachFlag 0.4 := by
  intro hb
  exact absurd hb.1 (lt_irrefl _)

/-- C2 (amended): for every cell obtained from a consistent Grid, the
terrain flags satisfy water ↔ height < 0.4, beach ↔ 0.4 < height < 0.45
(both bounds strict), frozen ↔ temperature < 0.3, desert ↔
temperature > 0.7; water and beach are mutually exclusive; and a cell whose
height is exactly 0.4 has neither the water nor the beach flag (rather than
beach = true as originally claimed). -/
theorem terrain_flags (g : TGrid) (x y : ℤ) (hg : GOk g) :
    ((Terrain.getCell g x y).1.water ↔ (Terrain.getCell g x y).1.height < 0.4) ∧
    ((Terrain.getCell g x y).1.beach ↔
      (0.4 < (Terrain.getCell g x y).1.height ∧ (Terrain.getCell g x y).1.height < 0.45)) ∧
    ((Terrain.getCell g x y).1.frozen ↔ (Terrain.getCell g x y).1.temperature < 0.3) ∧
    ((Terrain.getCell g x y).1.desert ↔ 0.7 < (Terrain.getCell g x y).1.temperature) ∧
    ¬((Terrain.getCell g x y).1.water ∧ (Terrain.getCell g x y).1.beach) ∧
    ((Terrain.getCell g x y).1.height = 0.4 →
      ¬(Terrain.getCell g x y).1.water ∧ ¬(Terrain.getCell g x y).1.beach) := by
  rw [getCell_fst g x y hg]
  simp only [pureCell]
  exact flags_spec _ _

/-- Witness for `terrain_flags` at a fresh grid with the demo frequencies. -/
theorem terrain_flags_witness :
    ((Terrain.getCell (freshTGrid demoFreqs) 0 0).1.water ↔
      (Terrain.getCell (freshTGrid demoFreqs) 0 0).1.height < 0.4) ∧
    ((Terrain.getCell (freshTGrid demoFreqs) 0 0).1.beach ↔
      (0.4 < (Terrain.getCell (freshTGrid demoFreqs) 0 0).1.height ∧
       (Terrain.getCell (freshTGrid demoFreqs) 0 0).1.height < 0.45)) ∧
    ((Terrain.getCell (freshTGrid demoFreqs) 0 0).1.frozen ↔
      (Terrain.getCell (freshTGrid demoFreqs) 0 0).1.temperature < 0.3) ∧
    ((Terrain.getCell (freshTGrid demoFreqs) 0 0).1.desert ↔
      0.7 < (Terrain.getCell (freshTGrid demoFreqs) 0 0).1.temperature) ∧
    ¬((Terrain.getCell (freshTGrid demoFreqs) 0 0).1.water ∧
      (Terrain.getCell (freshTGrid demoFreqs) 0 0).1.beach) ∧
    ((Terrain.getCell (freshTGrid demoFreqs) 0 0).1.height = 0.4 →
      ¬(Terrain.getCell (freshTGrid demoFreqs) 0 0).1.water ∧
      ¬(Terrain.getCell (freshTGrid demoFreqs) 0 0).1.beach) :=
  terrain_flags (freshTGrid demoFreqs) 0 0 (gok_fresh demoFreqs)

/-- C7: two Grid instances with the same cellSize and the same noise
frequencies (and therefore the same hard-coded seeds 123/456/789) produce
value-identical terrain at every coordinate pair: `getCell` returns cells
with equal soilFertility, height and temperature and equivalent terrain
flags.  Terrain is a pure function of coordinates and configuration, so
the same holds for two calls on one instance. -/
theorem getCell_deterministic (g1 g2 : TGrid) (x y : ℤ)
    (h1 : GOk g1) (h2 : GOk g2) (hcs : g1.cellSize = g2.cellSize)
    (hf : g1.freqs = g2.freqs) :
    (Terrain.getCell g1 x y).1.soilFertility = (Terrain.getCell g2 x y).1.soilFertility ∧
    (Terrain.getCell g1 x y).1.height = (Terrain.getCell g2 x y).1.height ∧
    (Terrain.getCell g1 x y).1.temperature = (Terrain.getCell g2 x y).1.temperature ∧
    ((Terrain.getCell g1 x y).1.water ↔ (Terrain.getCell g2 x y).1.water) ∧
    ((Terrain.getCell g1 x y).1.beach ↔ (Terrain.getCell g2 x y).1.beach) ∧
    ((Terrain.getCell g1 x y).1.frozen ↔ (Terrain.getCell g2 x y).1.frozen) ∧
    ((Terrain.getCell g1 x y).1.desert ↔ (Terrain.getCell g2 x y).1.desert) := by
  rw [getCell_fst g1 x y h1, getCell_fst g2 x y h2, hf]
  exact ⟨rfl, rfl, rfl, Iff.rfl, Iff.rfl, Iff.rfl, Iff.rfl⟩

/-- Witness for `getCell_deterministic`: two freshly constructed grids with
the demo configuration, queried at (3, -2). -/
theorem getCell_deterministic_witness :
    (Terrain.getCell (freshTGrid demoFreqs) 3 (-2)).1.soilFertility =
      (Terrain.getCell (freshTGrid demoFreqs) 3 (-2)).1.soilFertility ∧
    (Terrain.getCell (freshTGrid demoFreqs) 3 (-2)).1.height =
      (Terrain.getCell (freshTGrid demoFreqs) 3 (-2)).1.height ∧
    (Terrain.getCell (freshTGrid demoFreqs) 3 (-2)).1.temperature =
      (Terrain.getCell (freshTGrid demoFreqs) 3 (-2)).1.temperature ∧
    ((Terrain.getCell (freshTGrid demoFreqs) 3 (-2)).1.water ↔
      (Terrain.getCell (freshTGrid demoFreqs) 3 (-2)).1.water) ∧
    ((Terrain.getCell (freshTGrid demoFreqs) 3 (-2)).1.beach ↔
      (Terrain.getCell (freshTGrid demoFreqs) 3 (-2)).1.beach) ∧
    ((Terrain.getCell (freshTGrid demoFreqs) 3 (-2)).1.frozen ↔
      (Terrain.getCell (freshTGrid demoFreqs) 3 (-2)).1.frozen) ∧
    ((Terrain.getCell (freshTGrid demoFreqs) 3 (-2)).1.desert ↔
      (Terrain.getCell (freshTGrid demoFreqs) 3 (-2)).1.desert) :=
  getCell_deterministic (freshTGrid demoFreqs) (freshTGrid demoFreqs) 3 (-2)
    (gok_fresh demoFreqs) (gok_fresh demoFreqs) rfl rfl

lemma treePreferences_wf (ty : String) (p : TreePrefs) (hp : treePreferences ty = some p) :
    p.heightMin ≤ p.heightOptimal ∧ p.heightOptimal ≤ p.heightMax ∧ p.heightMin < p.heightMax ∧
    p.soilMin ≤ p.soilOptimal ∧ p.soilOptimal ≤ p.soilMax ∧ p.soilMin < p.soilMax ∧
    p.tempMin ≤ p.tempOptimal ∧ p.tempOptimal ≤ p.tempMax ∧ p.tempMin < p.tempMax := by
  unfold treePreferences at hp
  split_ifs at hp
  all_goals
    first
      | (cases hp
         norm_num [oakPrefs, pinePrefs, palmPrefs, birchPrefs, maplePrefs])
      | cases hp

lemma fitness_in_range (value min max optimal : ℚ) (h1 : min ≤ value) (h2 : value ≤ max)
    (h3 : min ≤ optimal) (h4 : optimal ≤ max) (h5 : min < max) :
    calculatePropertyFitness value min max optimal =
      1 - |value - optimal| / Max.max (optimal - min) (max - optimal) := by
  unfold calculatePropertyFitness
  rw [if_neg (by push_neg; exact ⟨h1, h2⟩)]
  dsimp only
  have hD : 0 < Max.max (optimal - min) (max - optimal) := by
    rw [lt_max_iff]
    rcases lt_or_le min optimal with hcase | hcase
    · exact Or.inl (by linarith)
    · exact Or.inr (by linarith)
  have hfit : 0 ≤ 1 - |value - optimal| / Max.max (optimal - min) (max - optimal) := by
    rw [sub_nonneg, div_le_one hD, abs_le]
    constructor
    · have := le_max_left (optimal - min) (max - optimal)
      linarith
    · have := le_max_right (optimal - min) (max - optimal)
      linarith
  rw [max_eq_right hfit]

/-- C9: `calculateTreeSpawnChance` with an unknown type key takes the
warning branch and returns spawn chance 0 without throwing; that type
contributes nothing to the spawn evaluation, which proceeds with the
remaining types; and for a known type whose three inputs lie within its
acceptable ranges, the returned chance is the product of the three
per-scalar fitness values `1 − |value − optimal| / max(optimal − min,
max − optimal)` multiplied by the base rate 0.3. -/
theorem treeSpawnChance_spec :
    (∀ (h s t : ℚ) (ty : String), treePreferences ty = none →
      calculateTreeSpawnChance h s t ty = { chance := 0, warned := true }) ∧
    (∀ (h s t : ℚ) (ty : String) (rest : List String), treePreferences ty = none →
      collectTreeChances h s t (ty :: rest) = collectTreeChances h s t rest) ∧
    (∀ (h s t : ℚ) (ty : String) (p : TreePrefs), treePreferences ty = some p →
      p.heightMin ≤ h → h ≤ p.heightMax → p.soilMin ≤ s → s ≤ p.soilMax →
      p.tempMin ≤ t → t ≤ p.tempMax →
      (calculateTreeSpawnChance h s t ty).chance =
        (1 - |h - p.heightOptimal| /
          Max.max (p.heightOptimal - p.heightMin) (p.heightMax - p.heightOptimal)) *
        (1 - |s - p.soilOptimal| /
          Max.max (p.soilOptimal - p.soilMin) (p.soilMax - p.soilOptimal)) *
        (1 - |t - p.tempOptimal| /
          Max.max (p.tempOptimal - p.tempMin) (p.tempMax - p.tempOptimal)) * (0.3 : ℚ)) := by
  refine ⟨?_, ?_, ?_⟩
  · intro h s t ty hnone
    simp only [calculateTreeSpawnChance, hnone]
  · intro h s t ty rest hnone
    simp [collectTreeChances, calculateTreeSpawnChance, hnone]
  · intro h s t ty p hp hh1 hh2 hs1 hs2 ht1 ht2
    obtain ⟨w1, w2, w3, w4, w5, w6, w7, w8, w9⟩ := treePreferences_wf ty p hp
    simp only [calculateTreeSpawnChance, hp]
    rw [fitness_in_range h p.heightMin p.heightMax p.heightOptimal hh1 hh2 w1 w2 w3,
      fitness_in_range s p.soilMin p.soilMax p.soilOptimal hs1 hs2 w4 w5 w6,
      fitness_in_range t p.tempMin p.tempMax p.tempOptimal ht1 ht2 w7 w8 w9]

/-- Witness for `treeSpawnChance_spec`: the unknown type key `cactus`, and
an in-range oak query at (0.55, 0.55, 0.55). -/
theorem treeSpawnChance_spec_witness :
    calculateTreeSpawnChance (1/2) (1/2) (1/2) "cactus" = { chance := 0, warned := true } ∧
    collectTreeChances (1/2) (1/2) (1/2) ["cactus"] = collectTreeChances (1/2) (1/2) (1/2) [] ∧
    (calculateTreeSpawnChance (11/20) (11/20) (11/20) "oak").chance =
      (1 - |(11/20 : ℚ) - oakPrefs.heightOptimal| /
        Max.max (oakPrefs.heightOptimal - oakPrefs.heightMin)
          (oakPrefs.heightMax - oakPrefs.heightOptimal)) *
      (1 - |(11/20 : ℚ) - oakPrefs.soilOptimal| /
        Max.max (oakPrefs.soilOptimal - oakPrefs.soilMin)
          (oakPrefs.soilMax - oakPrefs.soilOptimal)) *
      (1 - |(11/20 : ℚ) - oakPrefs.tempOptimal| /
        Max.max (oakPrefs.tempOptimal - oakPrefs.tempMin)
          (oakPrefs.tempMax - oakPrefs.tempOptimal)) * (0.3 : ℚ) :=
  ⟨treeSpawnChance_spec.1 (1/2) (1/2) (1/2) "cactus" rfl,
   treeSpawnChance_spec.2.1 (1/2) (1/2) (1/2) "cactus" [] rfl,
   treeSpawnChance_spec.2.2 (11/20) (11/20) (11/20) "oak" oakPrefs rfl
     (by norm_num [oakPrefs]) (by norm_num [oakPrefs]) (by norm_num [oakPrefs])
     (by norm_num [oakPrefs]) (by norm_num [oakPrefs]) (by norm_num [oakPrefs])⟩

end Terrain

namespace Flow

/-- C6 (amended): `Cell.getNeighborsInRadius(r)` enumerates the ring
against the cells existing at the time of the first call and caches the
result per radius; any later call serves the cached list unchanged (and
leaves the state untouched) even if neighboring cells have been
materialized since — the cache is never invalidated, so the cached
implementation is equivalent to a fresh ring enumeration only while no new
neighboring cell has appeared after the cache was built. -/
theorem neighbors_cache_spec (st : FState) (c : ℤ × ℤ) (cell : FCell) (r : ℕ)
    (hc : st.cells c = some cell) :
    (cell.neighborsInRadius r = none →
      (getNeighborsInRadius st c r).1 = neighborList st c r) ∧
    (∀ l, cell.neighborsInRadius r = some l →
      getNeighborsInRadius st c r = (l, st)) := by
  constructor
  · intro hcache
    rw [getNeighborsInRadius_fresh st c cell r hc hcache]
  · intro l hl
    exact getNeighborsInRadius_cached st c cell r l hc hl

/-- Witness for `neighbors_cache_spec`: first call on the lone origin cell. -/
theorem neighbors_cache_spec_witness :
    (getNeighborsInRadius oneCellMap (0, 0) 1).1 = neighborList oneCellMap (0, 0) 1 :=
  (neighbors_cache_spec oneCellMap (0, 0) (freshFCell 0) 1 rfl).1 rfl

/-- C6 counterexample: build the radius-1 cache of the origin cell while it
has no neighbors, then materialize the adjacent cell (0, 1); the next call
returns the stale empty cached list although a fresh enumeration now finds
the new neighbor — the cache is not invalidated, contradicting the claim
that the cached implementation always equals recomputation. -/
theorem neighbors_cache_stale_counterexample :
    (getNeighborsInRadius grownMap (0, 0) 1).1 ≠ neighborList grownMap (0, 0) 1 := by
  decide

end Flow

namespace Flow

lemma updateCell_cells_self (st : FState) (c : ℤ × ℤ) (cell : FCell) :
    (updateCell st c cell).cells c = some cell := by
  unfold updateCell
  dsimp only
  exact Function.update_same c (some cell) st.cells

/-- Value and state of `calculateFlowDirection` on a cell whose radius-3
neighbor cache has not been built yet. -/
lemma calculateFlowDirection_fresh (st : FState) (c : ℤ × ℤ) (cell : FCell)
    (hc : st.cells c = some cell) (hcache : cell.neighborsInRadius 3 = none) :
    calculateFlowDirection st c =
      (if 0 < vmagnitude (specFlowSum st c cell.height 3)
       then vnormalize (specFlowSum st c cell.height 3) else (0, 0),
       updateCell (updateCell st c
         { cell with neighborsInRadius :=
             Function.update cell.neighborsInRadius 3 (some (neighborList st c 3)) }) c
         { cell with
           neighborsInRadius :=
             Function.update cell.neighborsInRadius 3 (some (neighborList st c 3)),
           flowDirection :=
             if 0 < vmagnitude (specFlowSum st c cell.height 3)
             then vnormalize (specFlowSum st c cell.height 3) else (0, 0) }) := by
  have hgn := getNeighborsInRadius_fresh st c cell 3 hc hcache
  have hst1c := updateCell_cells_self st c
    { cell with neighborsInRadius :=
        Function.update cell.neighborsInRadius 3 (some (neighborList st c 3)) }
  have hfv : (neighborList st c 3).foldl
      (fun acc n => acc + contribOf (updateCell st c
        { cell with neighborsInRadius :=
            Function.update cell.neighborsInRadius 3 (some (neighborList st c 3)) })
        c cell.height n) (0, 0) = specFlowSum st c cell.height 3 := by
    rw [foldl_add_eq_sum, contribOf_updateCache st c cell _ cell.height hc, flowSum_eq]
    exact zero_add _
  simp only [calculateFlowDirection, hc, hgn, hst1c, hfv]

/-- C4: on the first call to `getFlowDirection` (flow not yet computed and
the radius-3 neighbor cache not yet built — in this repository only the
flow computation itself ever fills that cache entry), the returned vector
is the normalization of the sum, over all cells existing in the grid map
within Chebyshev radius 3 of this cell, of the unit direction from this
cell to the neighbor scaled by `this.height − neighbor.height`; if that sum
has zero magnitude the result is the zero vector — in particular a cell
whose entire existing radius-3 neighborhood has its own height yields the
zero vector; and the result is computed once: a second call on the
resulting state returns the cached vector and changes nothing. -/
theorem getFlowDirection_spec (st : FState) (c : ℤ × ℤ) (cell : FCell)
    (hc : st.cells c = some cell) (hflow : cell.flowDirectionCalculated = false)
    (hcache : cell.neighborsInRadius 3 = none) :
    ((getFlowDirection st c).1 =
      (if 0 < vmagnitude (specFlowSum st c cell.height 3)
       then vnormalize (specFlowSum st c cell.height 3) else (0, 0))) ∧
    ((∀ n ncell, n ∈ specNeighbors st c 3 → st.cells n = some ncell →
        ncell.height = cell.height) → (getFlowDirection st c).1 = (0, 0)) ∧
    (getFlowDirection (getFlowDirection st c).2 c =
      ((getFlowDirection st c).1, (getFlowDirection st c).2)) := by
  have hcfd := calculateFlowDirection_fresh st c cell hc hcache
  have hst2c := updateCell_cells_self (updateCell st c
      { cell with neighborsInRadius :=
          Function.update cell.neighborsInRadius 3 (some (neighborList st c 3)) }) c
      { cell with
        neighborsInRadius :=
          Function.update cell.neighborsInRadius 3 (some (neighborList st c 3)),
        flowDirection :=
          if 0 < vmagnitude (specFlowSum st c cell.height 3)
          then vnormalize (specFlowSum st c cell.height 3) else (0, 0) }
  have hgf : getFlowDirection st c =
      (if 0 < vmagnitude (specFlowSum st c cell.height 3)
       then vnormalize (specFlowSum st c cell.height 3) else (0, 0),
       updateCell (updateCell (updateCell st c
         { cell with neighborsInRadius :=
             Function.update cell.neighborsInRadius 3 (some (neighborList st c 3)) }) c
         { cell with
           neighborsInRadius :=
             Function.update cell.neighborsInRadius 3 (some (neighborList st c 3)),
           flowDirection :=
             if 0 < vmagnitude (specFlowSum st c cell.height 3)
             then vnormalize (specFlowSum st c cell.height 3) else (0, 0) }) c
         { cell with
           neighborsInRadius :=
             Function.update cell.neighborsInRadius 3 (some (neighborList st c 3)),
           flowDirection :=
             if 0 < vmagnitude (specFlowSum st c cell.height 3)
             then vnormalize (specFlowSum st c cell.height 3) else (0, 0),
           flowDirectionCalculated := true }) := by
    rw [hflow] at hcfd hst2c
    simp only [getFlowDirection, hc, hflow, Bool.false_eq_true, if_false, hcfd, hst2c]
  have hfst : (getFlowDirection st c).1 =
      (if 0 < vmagnitude (specFlowSum st c cell.height 3)
       then vnormalize (specFlowSum st c cell.height 3) else (0, 0)) := by
    rw [hgf]
  refine ⟨hfst, ?_, ?_⟩
  · intro hflat
    have hzero : specFlowSum st c cell.height 3 = (0, 0) := by
      unfold specFlowSum
      refine Finset.sum_eq_zero ?_
      intro n hn
      have hsome : (st.cells n).isSome := by
        unfold specNeighbors at hn
        simp only [Finset.mem_image, Finset.mem_filter] at hn
        obtain ⟨d, ⟨_, _, hs⟩, rfl⟩ := hn
        exact hs
      obtain ⟨ncell, hncell⟩ := Option.isSome_iff_exists.mp hsome
      have hh := hflat n ncell hn hncell
      simp only [contribOf, hncell, hh, sub_self, mul_zero]
      rfl
    rw [hfst, hzero]
    rw [if_neg]
    intro hpos
    have hm : vmagnitude ((0, 0) : ℝ × ℝ) = 0 := by
      unfold vmagnitude
      norm_num
    rw [hm] at hpos
    exact absurd hpos (lt_irrefl 0)
  · rw [hgf]
    have hst3c := updateCell_cells_self (updateCell (updateCell st c
        { cell with neighborsInRadius :=
            Function.update cell.neighborsInRadius 3 (some (neighborList st c 3)) }) c
        { cell with
          neighborsInRadius :=
            Function.update cell.neighborsInRadius 3 (some (neighborList st c 3)),
          flowDirection :=
            if 0 < vmagnitude (specFlowSum st c cell.height 3)
            then vnormalize (specFlowSum st c cell.height 3) else (0, 0) }) c
        { cell with
          neighborsInRadius :=
            Function.update cell.neighborsInRadius 3 (some (neighborList st c 3)),
          flowDirection :=
            if 0 < vmagnitude (specFlowSum st c cell.height 3)
            then vnormalize (specFlowSum st c cell.height 3) else (0, 0),
          flowDirectionCalculated := true }
    simp only [getFlowDirection, hst3c, if_true]

/-- Witness for `getFlowDirection_spec`: the lone freshly constructed
origin cell. -/
theorem getFlowDirection_spec_witness :
    ((getFlowDirection oneCellMap (0, 0)).1 =
      (if 0 < vmagnitude (specFlowSum oneCellMap (0, 0) (freshFCell 0).height 3)
       then vnormalize (specFlowSum oneCellMap (0, 0) (freshFCell 0).height 3)
       else (0, 0))) ∧
    ((∀ n ncell, n ∈ specNeighbors oneCellMap (0, 0) 3 →
        oneCellMap.cells n = some ncell → ncell.height = (freshFCell 0).height) →
      (getFlowDirection oneCellMap (0, 0)).1 = (0, 0)) ∧
    (getFlowDirection (getFlowDirection oneCellMap (0, 0)).2 (0, 0) =
      ((getFlowDirection oneCellMap (0, 0)).1, (getFlowDirection oneCellMap (0, 0)).2)) :=
  getFlowDirection_spec oneCellMap (0, 0) (freshFCell 0) rfl rfl rfl

end Flow
